import Mathlib

/-!
Verification model of `src/runtime/purescript_rc.h` (purescript-native,
reference-counting runtime).

The C++ runtime represents every value as a `boxed`, a
`std::shared_ptr<void>` pointing at a heap cell holding one payload
(`int`, `double`, `bool`, `string`, `array_t = std::deque<boxed>`,
`dict_t = string_literal_dict_t<boxed>`, `fn_t`, `eff_fn_t`).  We model
the heap explicitly: a cell address is a `Nat`, a `boxed` is an optional
address (`none` is the null pointer, the `undefined` sentinel), and each
payload is a constructor of `Payload`.  Function payloads
(`std::function`) are modelled abstractly by type parameters `F` (unary
functions) and `E` (nullary effect thunks) together with an
interpretation supplied where needed.  A `double` payload is modelled by
its 64-bit memory representation (`bits : Nat`), since the runtime never
computes with it, only stores and reloads it.

`boxed_r` (the forward-reference cell) is a `std::shared_ptr<boxed>`:
a slot holding one mutable `boxed`.  We keep those slots in a second
heap component `refs`; a `boxed_r` is the index of its slot.

Undefined behaviour (a `static_cast` to the wrong payload type,
dereferencing null, an unchecked out-of-range container access) is
modelled as `none` / `Option`-failure; a C++ exception thrown in a debug
build is modelled as `Except.error`.
-/

namespace Purescript

/-- A `boxed` value: `std::shared_ptr<void>`, i.e. null or the address of
a payload cell. -/
abbrev Boxed := Option Nat

/-- The closed set of payload kinds a cell can hold, one constructor per
`make_shared<T>` call in `purescript_rc.h`.  `arr` is
`array_t = std::deque<boxed>` (a sequence of pointers), `dict` is
`dict_t = string_literal_dict_t<boxed>` modelled as an association list
of string keys to pointers. -/
inductive Payload (F E : Type) where
  | int (n : Int)
  | dbl (bits : Nat)
  | bool (b : Bool)
  | str (s : String)
  | arr (a : List Boxed)
  | dict (m : List (String × Boxed))
  | fn (f : F)
  | eff (f : E)
deriving DecidableEq

/-- The tag of a payload.  The C++ runtime does NOT store this tag
(the payload type is erased behind `void*`); it exists only in the model
to state which kind a cell holds. -/
inductive Kind where
  | kint | kdbl | kbool | kstr | karr | kdict | kfn | keff
deriving DecidableEq

def Payload.kind {F E : Type} : Payload F E → Kind
  | .int _ => .kint
  | .dbl _ => .kdbl
  | .bool _ => .kbool
  | .str _ => .kstr
  | .arr _ => .karr
  | .dict _ => .kdict
  | .fn _ => .kfn
  | .eff _ => .keff

/-- The heap: `cells` holds the payload cells created by `make_shared<T>`
(a `Boxed` pointer `some a` designates `cells[a]`), `refs` holds the
`boxed_r` slots created by `make_shared<boxed>` (a `boxed_r` designates
`refs[r]`).  Reference counting only governs deallocation, which no
claim observes, so cells are never removed. -/
structure Heap (F E : Type) where
  cells : List (Payload F E)
  refs : List Boxed
deriving DecidableEq

variable {F E : Type}

/-- Allocate a fresh payload cell (`std::make_shared<T>(...)`) and return
its address. -/
def Heap.alloc (h : Heap F E) (p : Payload F E) : Heap F E × Nat :=
  ({ h with cells := h.cells ++ [p] }, h.cells.length)

/-- Dereference a `boxed` pointer to its payload cell; `none` when the
pointer is null or dangling (in C++: undefined behaviour). -/
def Heap.cellAt (h : Heap F E) (b : Boxed) : Option (Payload F E) :=
  match b with
  | none => none
  | some a => h.cells.get? a

/-! ### Value constructors (`boxed(...)` overloads, source lines 42-81) -/

/-- `boxed()` / `boxed(nullptr)`: the empty (null) value. -/
def boxed_null : Boxed := none

/-- `boxed(const int n)`: allocates `make_shared<int>(n)`.  The source
has no range check and no debug/release split for this overload; the
same definition models both build modes.  (A C++ `int` argument is
inherently within the signed 32-bit range.) -/
def boxed_int (h : Heap F E) (n : Int) : Heap F E × Boxed :=
  let (h, a) := h.alloc (.int n)
  (h, some a)

/-- Lower bound of C++ `int` (`std::numeric_limits<int>::min()`). -/
def int32_min : Int := -(2 ^ 31)

/-- Upper bound of C++ `int` (`std::numeric_limits<int>::max()`). -/
def int32_max : Int := 2 ^ 31 - 1

/-- `static_cast<int>(n)` for a 64-bit integer `n`: reduce modulo `2^32`
and reinterpret as signed (value in `[-2^31, 2^31)`). -/
def truncInt32 (n : Int) : Int :=
  let u := n % 2 ^ 32
  if u < 2 ^ 31 then u else u - 2 ^ 32

/-- `boxed(const long n)` in a debug build (`!defined(NDEBUG)`): stores
`static_cast<int>(n)` but throws `std::runtime_error("integer out of
range")` when `n` is outside `[int32_min, int32_max]`, so construction
only completes in range (where the cast is the identity). -/
def boxed_long_debug (h : Heap F E) (n : Int) :
    Except String (Heap F E × Boxed) :=
  if n < int32_min ∨ int32_max < n then .error "integer out of range"
  else
    let (h, a) := h.alloc (.int (truncInt32 n))
    .ok (h, some a)

/-- `boxed(const long n)` in a release build (`NDEBUG`): stores
`static_cast<int>(n)` unconditionally (silent truncation). -/
def boxed_long_release (h : Heap F E) (n : Int) : Heap F E × Boxed :=
  let (h, a) := h.alloc (.int (truncInt32 n))
  (h, some a)

/-- `boxed(const unsigned long n)` in a debug build: stores
`static_cast<int>(n)` but throws when `n > int32_max` (the argument is
unsigned, so no lower-bound test is needed). -/
def boxed_ulong_debug (h : Heap F E) (n : Nat) :
    Except String (Heap F E × Boxed) :=
  if int32_max < (n : Int) then .error "integer out of range"
  else
    let (h, a) := h.alloc (.int (truncInt32 n))
    .ok (h, some a)

/-- `boxed(const unsigned long n)` in a release build: silent
truncation via `static_cast<int>(n)`. -/
def boxed_ulong_release (h : Heap F E) (n : Nat) : Heap F E × Boxed :=
  let (h, a) := h.alloc (.int (truncInt32 n))
  (h, some a)

/-- `boxed(const double n)`: allocates `make_shared<double>(n)`; the
double is modelled by its 64-bit representation. -/
def boxed_double (h : Heap F E) (bits : Nat) : Heap F E × Boxed :=
  let (h, a) := h.alloc (.dbl bits)
  (h, some a)

/-- `boxed(const bool b)`: allocates `make_shared<bool>(b)`. -/
def boxed_bool (h : Heap F E) (b : Bool) : Heap F E × Boxed :=
  let (h, a) := h.alloc (.bool b)
  (h, some a)

/-- `boxed(const char s[])` / `boxed(const string&)` /
`boxed(string&&)`: allocates `make_shared<string>(s)` (a copy or move of
the characters; both store exactly `s`). -/
def boxed_string (h : Heap F E) (s : String) : Heap F E × Boxed :=
  let (h, a) := h.alloc (.str s)
  (h, some a)

/-- `boxed(const array_t&)` / `boxed(array_t&&)`: allocates
`make_shared<array_t>(l)` — the deque of `boxed` pointers is copied (or
moved) element-for-element into the new cell. -/
def boxed_array (h : Heap F E) (l : List Boxed) : Heap F E × Boxed :=
  let (h, a) := h.alloc (.arr l)
  (h, some a)

/-- `boxed(const dict_t&)` / `boxed(dict_t&&)`: allocates
`make_shared<dict_t>(m)`, copying (or moving) the key/pointer mapping. -/
def boxed_dict (h : Heap F E) (m : List (String × Boxed)) :
    Heap F E × Boxed :=
  let (h, a) := h.alloc (.dict m)
  (h, some a)

/-- The templated `boxed(const T& f)` overload for callables assignable
to `std::function<boxed(boxed)>`: allocates `make_shared<fn_t>(f)`. -/
def boxed_fn (h : Heap F E) (f : F) : Heap F E × Boxed :=
  let (h, a) := h.alloc (.fn f)
  (h, some a)

/-- The templated `boxed(const T& f)` overload for callables assignable
to `std::function<boxed(void)>`: allocates `make_shared<eff_fn_t>(f)`. -/
def boxed_eff (h : Heap F E) (f : E) : Heap F E × Boxed :=
  let (h, a) := h.alloc (.eff f)
  (h, some a)

/-! ### `unbox` (source lines 160-179)

`unbox<T>(b)` is `*static_cast<const T*>(b.get())`: a reinterpretation
with no tag check.  Reading a cell as the wrong payload type, or through
a null pointer, is undefined behaviour, modelled as `none`. -/

/-- `unbox<int>`. -/
def unbox_int (h : Heap F E) (b : Boxed) : Option Int :=
  match h.cellAt b with
  | some (.int n) => some n
  | _ => none

/-- `unbox<double>` (result as 64-bit representation). -/
def unbox_double (h : Heap F E) (b : Boxed) : Option Nat :=
  match h.cellAt b with
  | some (.dbl bits) => some bits
  | _ => none

/-- `unbox<bool>`. -/
def unbox_bool (h : Heap F E) (b : Boxed) : Option Bool :=
  match h.cellAt b with
  | some (.bool x) => some x
  | _ => none

/-- `unbox<string>`. -/
def unbox_string (h : Heap F E) (b : Boxed) : Option String :=
  match h.cellAt b with
  | some (.str s) => some s
  | _ => none

/-- `unbox<array_t>`. -/
def unbox_array (h : Heap F E) (b : Boxed) : Option (List Boxed) :=
  match h.cellAt b with
  | some (.arr a) => some a
  | _ => none

/-- `unbox<dict_t>`. -/
def unbox_dict (h : Heap F E) (b : Boxed) :
    Option (List (String × Boxed)) :=
  match h.cellAt b with
  | some (.dict m) => some m
  | _ => none

/-- `unbox<fn_t>`. -/
def unbox_fn (h : Heap F E) (b : Boxed) : Option F :=
  match h.cellAt b with
  | some (.fn f) => some f
  | _ => none

/-- The scalar overload `template <typename T> unbox(const T value) -> T
{ return value; }`: `unbox` applied to an already-unboxed native scalar
is the identity. -/
def unbox_scalar {α : Type} (value : α) : α := value

/-- The `std::size_t` overload of `unbox<int>`:
`constexpr auto unbox(const std::size_t value) -> long long`.  It
converts the (64-bit unsigned) `size_t` argument to the signed 64-bit
`long long` type: the value is preserved when below `2^63` and reduced
modulo `2^64` otherwise. -/
def unbox_size_t (value : Nat) : Int :=
  if value < 2 ^ 63 then (value : Int) else (value : Int) - 2 ^ 64

/-- `array_length(a)`: `unbox<array_t>(a).size()` (UB when `a` does not
hold an array payload). -/
def array_length (h : Heap F E) (b : Boxed) : Option Nat :=
  match unbox_array h b with
  | some a => some a.length
  | none => none

/-! ### Positional indexing (`operator[](const int index)`, source lines
101-117)

Debug builds use `deque::at(index)`, which throws `std::out_of_range`
when the index is not below the size; the `int` index converts to the
unsigned `size_type`, so a negative index becomes a huge value and is
likewise out of range.  Release builds use the unchecked
`deque::operator[]`, whose out-of-range behaviour is undefined
(modelled `none`). -/

/-- `deque::at(i)` on the element list: bounds-checked access. -/
def atIdx (a : List Boxed) (i : Int) : Except String Boxed :=
  if i < 0 then .error "deque out of range"
  else
    match a.get? i.toNat with
    | some x => .ok x
    | none => .error "deque out of range"

/-- Debug-build `operator[](const int index)`:
`static_cast<const array_t*>(get())->at(index)`.  Outer `none` is the
undefined behaviour of reading a non-array payload (or null); the inner
`Except` reports the bounds check. -/
def index_pos_debug (h : Heap F E) (b : Boxed) (i : Int) :
    Option (Except String Boxed) :=
  match h.cellAt b with
  | some (.arr a) => some (atIdx a i)
  | _ => none

/-- Release-build `operator[](const int index)`:
`(*static_cast<const array_t*>(get()))[index]` with no bounds
validation; any out-of-range access is undefined behaviour (`none`),
never a reported failure. -/
def index_pos_release (h : Heap F E) (b : Boxed) (i : Int) :
    Option Boxed :=
  match h.cellAt b with
  | some (.arr a) => if i < 0 then none else a.get? i.toNat
  | _ => none

/-! ### Invocation (`operator()`, source lines 83-91)

The stored callables are abstract (`F`, `E`); an interpretation function
says what invoking each callable does.  A callable wraps compiled code,
which may itself allocate, so the interpretation transforms the heap. -/

/-- `operator()(const boxed& arg)`:
`(*static_cast<fn_t*>(get()))(arg)` — reinterprets the payload as the
unary-function payload and invokes it with `arg`.  A non-function
payload (or null) is undefined behaviour (`none`). -/
def callFn (appF : F → Heap F E → Boxed → Heap F E × Boxed)
    (h : Heap F E) (b : Boxed) (arg : Boxed) :
    Option (Heap F E × Boxed) :=
  match h.cellAt b with
  | some (.fn f) => some (appF f h arg)
  | _ => none

/-- `operator()()`: `(*static_cast<eff_fn_t*>(get()))()` — reinterprets
as the effect-thunk payload and invokes it with no arguments. -/
def callEff (appE : E → Heap F E → Heap F E × Boxed)
    (h : Heap F E) (b : Boxed) : Option (Heap F E × Boxed) :=
  match h.cellAt b with
  | some (.eff f) => some (appE f h)
  | _ => none

/-! ### Keyed indexing (`operator[](const char key[])`, source lines
93-99)

The dict payload type `string_literal_dict_t` is declared in
`string_literal_dict.h`, which is not part of this source tree. -/

/-- Modelled from the spec: lookup in `string_literal_dict_t` (defined
in the missing header `string_literal_dict.h`) — a string-keyed mapping
with unique keys; `none` when the key is absent. -/
def lookupAssoc (m : List (String × Boxed)) (k : String) :
    Option Boxed :=
  match m with
  | [] => none
  | (k2, v) :: rest => if k2 = k then some v else lookupAssoc rest k

/-- Modelled from the spec: replacing the value stored at an existing
key of a `string_literal_dict_t` (writing through the reference its
mutable `operator[]` returns). -/
def setAssoc (m : List (String × Boxed)) (k : String) (v : Boxed) :
    List (String × Boxed) :=
  match m with
  | [] => []
  | (k2, w) :: rest =>
      if k2 = k then (k2, v) :: rest else (k2, w) :: setAssoc rest k v

/-- Replace the payload stored in an existing cell (in-place mutation of
the pointee, not a reallocation). -/
def Heap.setCell (h : Heap F E) (a : Nat) (p : Payload F E) :
    Heap F E :=
  { h with cells := h.cells.set a p }

/-- Const `operator[](const char key[])`:
`(*static_cast<const dict_t*>(get()))[key]`.  Modelled from the spec:
the const form requires the key to exist; an absent key, like a
non-dict payload, is a contract violation (`none`). -/
def index_key_const (h : Heap F E) (b : Boxed) (k : String) :
    Option Boxed :=
  match h.cellAt b with
  | some (.dict m) => lookupAssoc m k
  | _ => none

/-- Mutable `operator[](const char key[])`:
`(*static_cast<dict_t*>(get()))[key]`.  Modelled from the spec: map
semantics — when the key is absent a default (null) `boxed` entry is
inserted into the dict payload cell in place, and the entry's current
value is returned (as a writable reference; writing through it is
`dict_entry_set`). -/
def index_key_mut (h : Heap F E) (b : Boxed) (k : String) :
    Option (Heap F E × Boxed) :=
  match b with
  | none => none
  | some a =>
    match h.cells.get? a with
    | some (.dict m) =>
        match lookupAssoc m k with
        | some v => some (h, v)
        | none =>
            some (h.setCell a (.dict (m ++ [(k, boxed_null)])),
              boxed_null)
    | _ => none

/-- Assignment through the `boxed&` returned by the mutable keyed
lookup: replaces the entry at key `k` inside the dict payload cell. -/
def dict_entry_set (h : Heap F E) (b : Boxed) (k : String)
    (v : Boxed) : Option (Heap F E) :=
  match b with
  | none => none
  | some a =>
    match h.cells.get? a with
    | some (.dict m) => some (h.setCell a (.dict (setAssoc m k v)))
    | _ => none

/-- Assignment through the `boxed&` returned by the mutable positional
lookup: replaces element `i` of the array payload cell (no effect when
`i` is out of range — the debug build would already have thrown when
producing the reference). -/
def arr_entry_set (h : Heap F E) (b : Boxed) (i : Nat) (v : Boxed) :
    Option (Heap F E) :=
  match b with
  | none => none
  | some a =>
    match h.cells.get? a with
    | some (.arr l) => some (h.setCell a (.arr (l.set i v)))
    | _ => none

/-! ### `boxed_r` — the ForwardRef cell (source lines 126-153)

`class boxed_r : private std::shared_ptr<void>` holds a
`make_shared<boxed>()`: a slot containing one mutable `boxed`.  A
`boxed_r` is modelled as the index of its slot in `Heap.refs`. -/

/-- A ForwardRef: the index of its slot in `Heap.refs`. -/
abbrev RefId := Nat

/-- `boxed_r()`: allocates a slot holding a default-constructed (null)
`boxed`. -/
def mkRef (h : Heap F E) : Heap F E × RefId :=
  ({ h with refs := h.refs ++ [boxed_null] }, h.refs.length)

/-- `operator const boxed&()`: `*static_cast<const boxed*>(get())` —
read the slot's current `boxed` (`none` only for a dangling slot index,
which `mkRef` never produces). -/
def readRef (h : Heap F E) (r : RefId) : Option Boxed :=
  h.refs.get? r

/-- `template <typename T> operator=(T&& right)`:
`b = std::forward<T>(right)` where `b` is the slot's `boxed`.  A
value-constructible input is first converted to a `boxed` by the
matching constructor of §`boxed`, so `v` is that constructor's result.
The slot's identity (`r`) is untouched; only its contents change. -/
def assignRef (h : Heap F E) (r : RefId) (v : Boxed) : Heap F E :=
  { h with refs := h.refs.set r v }

/-- The implicit `boxed_r` copy constructor copies the underlying
`shared_ptr<boxed>`, so the copy designates the same slot. -/
def copyRef (r : RefId) : RefId := r

/-- `boxed_r::operator()(const boxed& arg)`: reads the slot's `boxed`
and invokes it as a unary-function payload. -/
def callRefFn (appF : F → Heap F E → Boxed → Heap F E × Boxed)
    (h : Heap F E) (r : RefId) (arg : Boxed) :
    Option (Heap F E × Boxed) :=
  match readRef h r with
  | some b => callFn appF h b arg
  | none => none

/-! ### Concrete states used by the example-based claims -/

/-- An empty heap at concrete payload parameters, used by the concrete
examples below. -/
def emptyHeap : Heap Unit Unit := ⟨[], []⟩

/-- The concrete state of C3: a sequence payload built from the ordered
integer values `[1, 2, 3]` (three `int` cells at addresses 0, 1, 2 and
an array cell pointing at them). -/
def ex_array_state : Heap Unit Unit × Boxed :=
  let s1 := boxed_int emptyHeap 1
  let s2 := boxed_int s1.1 2
  let s3 := boxed_int s2.1 3
  boxed_array s3.1 [s1.2, s2.2, s3.2]

/-- The concrete mapping state of C6: an `int` cell holding 10 at
address 0 and a dict cell `{"x" ↦ (the boxed 10)}` at address 1. -/
def ex_dict_state : Heap Unit Unit × Boxed :=
  let s := boxed_int emptyHeap 10
  boxed_dict s.1 [("x", s.2)]

/-- The C6 state after the mutable lookup of the absent key `"y"` has
inserted a default (null) entry into the dict cell. -/
def ex_dict_inserted : Heap Unit Unit :=
  ex_dict_state.1.setCell 1
    (.dict [("x", some 0), ("y", boxed_null)])

/-- A ForwardRef slot allocated on top of the C6 state (used to witness
the ref clause of the kind invariant). -/
def ex_dict_ref_state : Heap Unit Unit × RefId := mkRef ex_dict_state.1

/-- A fresh ForwardRef slot over the empty heap. -/
def ex_ref_state : Heap Unit Unit × RefId := mkRef emptyHeap

/-- A `boxed` integer 42 constructed on top of the ForwardRef state, to
be assigned into the slot. -/
def ex_assign_state : Heap Unit Unit × Boxed :=
  boxed_int ex_ref_state.1 42

/-- The semantics of the one concrete callable used below: a native
callable of shape `boxed → boxed` that unboxes its integer argument,
adds 1 and boxes the result. -/
def addOneSem : Unit → Heap Unit Unit → Boxed → Heap Unit Unit × Boxed :=
  fun _ h b =>
    match unbox_int h b with
    | some n => boxed_int h (n + 1)
    | none => (h, boxed_null)

/-- The concrete state of C7: an `int` cell holding 41 and a
unary-function cell wrapping the add-one callable. -/
def ex_fn_state : (Heap Unit Unit × Boxed) × Boxed :=
  let s41 := boxed_int emptyHeap 41
  (boxed_fn s41.1 (), s41.2)

/-! ### The heap-mutating operations of the public API, as one step
relation (for the payload-kind invariant of C4)

Read-only operations (const lookups, `unbox`, `array_length`, the
`operator()` dispatch itself) do not modify the heap and have no case
here; a callable invoked by `operator()` is itself compiled code made
of these same operations. -/

/-- One heap-mutating operation of the runtime API. -/
inductive Op (F E : Type) where
  | mkInt (n : Int)
  | mkLong (n : Int)
  | mkULong (n : Nat)
  | mkDouble (bits : Nat)
  | mkBool (b : Bool)
  | mkStr (s : String)
  | mkArr (a : List Boxed)
  | mkDict (m : List (String × Boxed))
  | mkFn (f : F)
  | mkEff (f : E)
  | keyIndexMut (b : Boxed) (k : String)
  | keySet (b : Boxed) (k : String) (v : Boxed)
  | posSet (b : Boxed) (i : Nat) (v : Boxed)
  | newRef
  | refAssign (r : RefId) (v : Boxed)
deriving DecidableEq

/-- The heap effect of each operation.  The `mkLong`/`mkULong` cases use
the release-build constructor: the debug build allocates the same cell
when in range and throws (leaving no observable value) otherwise.
Operations whose contract is violated (`none` result) leave the heap
unchanged. -/
def Op.step : Op F E → Heap F E → Heap F E
  | .mkInt n, h => (boxed_int h n).1
  | .mkLong n, h => (boxed_long_release h n).1
  | .mkULong n, h => (boxed_ulong_release h n).1
  | .mkDouble bits, h => (boxed_double h bits).1
  | .mkBool b, h => (boxed_bool h b).1
  | .mkStr s, h => (boxed_string h s).1
  | .mkArr a, h => (boxed_array h a).1
  | .mkDict m, h => (boxed_dict h m).1
  | .mkFn f, h => (boxed_fn h f).1
  | .mkEff f, h => (boxed_eff h f).1
  | .keyIndexMut b k, h =>
      match index_key_mut h b k with
      | some (h2, _) => h2
      | none => h
  | .keySet b k v, h => (dict_entry_set h b k v).getD h
  | .posSet b i v, h => (arr_entry_set h b i v).getD h
  | .newRef, h => (mkRef h).1
  | .refAssign r v, h => assignRef h r v

/-! ### Helper lemmas about heap reads -/

theorem List.get?_concat_len (l : List α) (p : α) :
    (l ++ [p]).get? l.length = some p := by
  induction l with
  | nil => rfl
  | cons x xs ih => exact ih

theorem Heap.cellAt_alloc (h : Heap F E) (p : Payload F E) :
    (h.alloc p).1.cellAt (some (h.alloc p).2) = some p := by
  simp [Heap.alloc, Heap.cellAt, List.get?_concat_len]

theorem lt_of_get?_eq_some {l : List α} {n : Nat} {a : α}
    (h : l.get? n = some a) : n < l.length := by
  induction l generalizing n with
  | nil => simp [List.get?] at h
  | cons x xs ih =>
    cases n with
    | zero => simp
    | succ k => exact Nat.succ_lt_succ (ih h)

theorem get?_append_of_lt (l1 l2 : List α) (n : Nat)
    (hn : n < l1.length) : (l1 ++ l2).get? n = l1.get? n := by
  induction l1 generalizing n with
  | nil => exact absurd hn (Nat.not_lt_zero n)
  | cons x xs ih =>
    cases n with
    | zero => rfl
    | succ k => exact ih k (Nat.lt_of_succ_lt_succ hn)

theorem get?_set_self_of_lt (l : List α) (i : Nat) (v : α)
    (hi : i < l.length) : (l.set i v).get? i = some v := by
  induction l generalizing i with
  | nil => exact absurd hi (Nat.not_lt_zero i)
  | cons x xs ih =>
    cases i with
    | zero => rfl
    | succ k => exact ih k (Nat.lt_of_succ_lt_succ hi)

theorem get?_set_of_ne (l : List α) (i j : Nat) (v : α) (hij : i ≠ j) :
    (l.set i v).get? j = l.get? j := by
  induction l generalizing i j with
  | nil => rfl
  | cons x xs ih =>
    cases i with
    | zero =>
      cases j with
      | zero => exact absurd rfl hij
      | succ k => rfl
    | succ i2 =>
      cases j with
      | zero => rfl
      | succ k => exact ih i2 k fun he => hij (by rw [he])

/-! ### Claims -/

/-- **C1.** For every supported payload kind, constructing a `boxed`
from a native input and then unboxing it through the matching payload
type returns exactly the original input: the round-trip law for `int`,
`double`, `bool`, `string`, `array_t` and `dict_t` payloads. -/
theorem unbox_boxed_roundtrip :
    ∀ (h : Heap F E) (n : Int) (d : Nat) (b : Bool) (s : String)
      (a : List Boxed) (m : List (String × Boxed)),
      unbox_int (boxed_int h n).1 (boxed_int h n).2 = some n ∧
      unbox_double (boxed_double h d).1 (boxed_double h d).2 = some d ∧
      unbox_bool (boxed_bool h b).1 (boxed_bool h b).2 = some b ∧
      unbox_string (boxed_string h s).1 (boxed_string h s).2 = some s ∧
      unbox_array (boxed_array h a).1 (boxed_array h a).2 = some a ∧
      unbox_dict (boxed_dict h m).1 (boxed_dict h m).2 = some m := by
  intro h n d b s a m
  refine ⟨?_, ?_, ?_, ?_, ?_, ?_⟩ <;>
    simp [unbox_int, unbox_double, unbox_bool, unbox_string, unbox_array,
      unbox_dict, boxed_int, boxed_double, boxed_bool, boxed_string,
      boxed_array, boxed_dict, Heap.cellAt_alloc]

theorem truncInt32_eq_self (n : Int) (h1 : int32_min ≤ n)
    (h2 : n ≤ int32_max) : truncInt32 n = n := by
  simp only [truncInt32, int32_min, int32_max] at *
  split <;> omega

/-- **C2.** Wide native integer construction (`long` and
`unsigned long` overloads): inside the signed 32-bit range construction
succeeds in both build modes and unboxing returns exactly the input;
outside that range the debug build throws "integer out of range" while
the release build silently stores the input reduced modulo `2^32`,
reinterpreted as a signed 32-bit value (`truncInt32`). -/
theorem wide_int_ctor_range (h : Heap F E) (n : Int) (m : Nat) :
    (int32_min ≤ n ∧ n ≤ int32_max →
       boxed_long_debug h n = .ok (boxed_long_release h n) ∧
       unbox_int (boxed_long_release h n).1 (boxed_long_release h n).2 =
         some n) ∧
    (n < int32_min ∨ int32_max < n →
       boxed_long_debug h n = .error "integer out of range" ∧
       unbox_int (boxed_long_release h n).1 (boxed_long_release h n).2 =
         some (truncInt32 n)) ∧
    ((m : Int) ≤ int32_max →
       boxed_ulong_debug h m = .ok (boxed_ulong_release h m) ∧
       unbox_int (boxed_ulong_release h m).1
         (boxed_ulong_release h m).2 = some (m : Int)) ∧
    (int32_max < (m : Int) →
       boxed_ulong_debug h m = .error "integer out of range" ∧
       unbox_int (boxed_ulong_release h m).1
         (boxed_ulong_release h m).2 = some (truncInt32 m)) := by
  refine ⟨fun hin => ⟨?_, ?_⟩, fun hout => ⟨?_, ?_⟩,
    fun hin => ⟨?_, ?_⟩, fun hout => ⟨?_, ?_⟩⟩
  · simp only [boxed_long_debug, boxed_long_release]
    rw [if_neg (by omega)]
  · simp only [boxed_long_release, unbox_int, Heap.cellAt_alloc,
      truncInt32_eq_self n hin.1 hin.2]
  · simp only [boxed_long_debug]
    rw [if_pos hout]
  · simp [boxed_long_release, unbox_int, Heap.cellAt_alloc]
  · simp only [boxed_ulong_debug, boxed_ulong_release]
    rw [if_neg (by omega)]
  · have hm : truncInt32 (m : Int) = (m : Int) :=
      truncInt32_eq_self m (by simp only [int32_min]; omega) hin
    simp only [boxed_ulong_release, unbox_int, Heap.cellAt_alloc, hm]
  · simp only [boxed_ulong_debug]
    rw [if_pos hout]
  · simp [boxed_ulong_release, unbox_int, Heap.cellAt_alloc]

theorem alloc_cells_preserved (h : Heap F E) (p : Payload F E)
    (a : Nat) (q : Payload F E) (hq : h.cells.get? a = some q) :
    (h.alloc p).1.cells.get? a = some q := by
  simp only [Heap.alloc]
  rw [get?_append_of_lt _ _ _ (lt_of_get?_eq_some hq)]
  exact hq

theorem setCell_kind_preserved (h : Heap F E) (a0 : Nat)
    (pnew pold : Payload F E) (h0 : h.cells.get? a0 = some pold)
    (hk : pnew.kind = pold.kind) (a : Nat) (q : Payload F E)
    (hq : h.cells.get? a = some q) :
    ∃ q2, (h.setCell a0 pnew).cells.get? a = some q2 ∧
      q2.kind = q.kind := by
  by_cases hae : a0 = a
  · subst hae
    refine ⟨pnew, ?_, ?_⟩
    · simp only [Heap.setCell]
      exact get?_set_self_of_lt h.cells a0 pnew (lt_of_get?_eq_some h0)
    · rw [h0] at hq
      injection hq with hq
      rw [hk, hq]
  · refine ⟨q, ?_, rfl⟩
    simp only [Heap.setCell]
    rw [get?_set_of_ne h.cells a0 a pnew hae]
    exact hq

/-- Witness for `wide_int_ctor_range` at concrete inputs: `5` is in
range and round-trips; `2^31` is out of range, so the debug build
reports the failure and the release build stores
`truncInt32 (2^31) = -2^31`. -/
theorem wide_int_ctor_range_witness :
    boxed_long_debug emptyHeap 5 = .ok (boxed_long_release emptyHeap 5) ∧
    unbox_int (boxed_long_release emptyHeap 5).1
      (boxed_long_release emptyHeap 5).2 = some 5 ∧
    boxed_long_debug emptyHeap (2 ^ 31) =
      .error "integer out of range" ∧
    unbox_int (boxed_long_release emptyHeap (2 ^ 31)).1
      (boxed_long_release emptyHeap (2 ^ 31)).2 =
      some (truncInt32 (2 ^ 31)) ∧
    boxed_ulong_debug emptyHeap (2 ^ 32) =
      .error "integer out of range" := by
  have h5 := wide_int_ctor_range (F := Unit) (E := Unit) emptyHeap 5 0
  have hbig := wide_int_ctor_range (F := Unit) (E := Unit) emptyHeap
    (2 ^ 31) (2 ^ 32)
  exact ⟨(h5.1 (by decide)).1, (h5.1 (by decide)).2,
    (hbig.2.1 (by decide)).1, (hbig.2.1 (by decide)).2,
    (hbig.2.2.2 (by decide)).1⟩

/-- **C3.** On the sequence payload built from `[1, 2, 3]`:
`array_length` returns 3; the positional read at index 1 returns the
`boxed` at address 1, which unboxes to the integer 2; in a debug build
the positional read at index 5 throws the out-of-range failure
(distinguishable from normal control flow); in a release build the
bounds are not validated, so the same read is undefined behaviour
(`none`), not a reported failure. -/
theorem array_concrete_ops :
    array_length ex_array_state.1 ex_array_state.2 = some 3 ∧
    index_pos_debug ex_array_state.1 ex_array_state.2 1 =
      some (.ok (some 1)) ∧
    unbox_int ex_array_state.1 (some 1) = some 2 ∧
    index_pos_debug ex_array_state.1 ex_array_state.2 5 =
      some (.error "deque out of range") ∧
    index_pos_release ex_array_state.1 ex_array_state.2 5 = none := by
  refine ⟨rfl, rfl, rfl, rfl, rfl⟩

/-- **C4.** A `boxed`, once constructed, never changes which payload
kind it holds: every heap-mutating operation of the API preserves the
kind of every existing payload cell (it only allocates new cells or
rewrites a cell's contents within the same kind), and the only
operation that replaces the value observed through a shared slot — the
reassignment semantics — is `boxed_r` (ForwardRef) assignment:
every other operation leaves every existing ref slot untouched.
(Assigning to a plain `boxed` variable merely reseats that one local
pointer; no shared cell is affected, so it does not appear as a heap
operation.) -/
theorem payload_kind_invariant (op : Op F E) (h : Heap F E) :
    (∀ a p, h.cells.get? a = some p →
       ∃ q, (op.step h).cells.get? a = some q ∧ q.kind = p.kind) ∧
    ((∀ r v, op ≠ .refAssign r v) →
       ∀ r, r < h.refs.length →
         (op.step h).refs.get? r = h.refs.get? r) := by
  constructor
  · intro a p hp
    cases op with
    | mkInt n => exact ⟨p, alloc_cells_preserved h _ a p hp, rfl⟩
    | mkLong n => exact ⟨p, alloc_cells_preserved h _ a p hp, rfl⟩
    | mkULong n => exact ⟨p, alloc_cells_preserved h _ a p hp, rfl⟩
    | mkDouble bits => exact ⟨p, alloc_cells_preserved h _ a p hp, rfl⟩
    | mkBool b => exact ⟨p, alloc_cells_preserved h _ a p hp, rfl⟩
    | mkStr s => exact ⟨p, alloc_cells_preserved h _ a p hp, rfl⟩
    | mkArr l => exact ⟨p, alloc_cells_preserved h _ a p hp, rfl⟩
    | mkDict m => exact ⟨p, alloc_cells_preserved h _ a p hp, rfl⟩
    | mkFn f => exact ⟨p, alloc_cells_preserved h _ a p hp, rfl⟩
    | mkEff f => exact ⟨p, alloc_cells_preserved h _ a p hp, rfl⟩
    | keyIndexMut b k =>
      cases b with
      | none => exact ⟨p, hp, rfl⟩
      | some a0 =>
        simp only [Op.step, index_key_mut]
        split
        next h2 v2 heq =>
          split at heq
          next m hcm =>
            split at heq
            next v0 hl =>
              cases heq
              exact ⟨p, hp, rfl⟩
            next hl =>
              cases heq
              exact setCell_kind_preserved h a0
                (.dict (m ++ [(k, boxed_null)])) (.dict m) hcm rfl a p hp
          next x hx => cases heq
        next heq => exact ⟨p, hp, rfl⟩
    | keySet b k v =>
      cases b with
      | none => exact ⟨p, hp, rfl⟩
      | some a0 =>
        simp only [Op.step, dict_entry_set]
        split
        next m hcm =>
          exact setCell_kind_preserved h a0
            (.dict (setAssoc m k v)) (.dict m) hcm rfl a p hp
        next x hx => exact ⟨p, hp, rfl⟩
    | posSet b i v =>
      cases b with
      | none => exact ⟨p, hp, rfl⟩
      | some a0 =>
        simp only [Op.step, arr_entry_set]
        split
        next l hcm =>
          exact setCell_kind_preserved h a0
            (.arr (l.set i v)) (.arr l) hcm rfl a p hp
        next x hx => exact ⟨p, hp, rfl⟩
    | newRef => exact ⟨p, hp, rfl⟩
    | refAssign r v => exact ⟨p, hp, rfl⟩
  · intro hne r hr
    cases op with
    | mkInt n => rfl
    | mkLong n => rfl
    | mkULong n => rfl
    | mkDouble bits => rfl
    | mkBool b => rfl
    | mkStr s => rfl
    | mkArr l => rfl
    | mkDict m => rfl
    | mkFn f => rfl
    | mkEff f => rfl
    | keyIndexMut b k =>
      cases b with
      | none => rfl
      | some a0 =>
        simp only [Op.step, index_key_mut]
        split
        next h2 v2 heq =>
          split at heq
          next m hcm =>
            split at heq
            next v0 hl =>
              cases heq
              rfl
            next hl =>
              cases heq
              rfl
          next x hx => cases heq
        next heq => rfl
    | keySet b k v =>
      cases b with
      | none => rfl
      | some a0 =>
        simp only [Op.step, dict_entry_set]
        split
        next m hcm => rfl
        next x hx => rfl
    | posSet b i v =>
      cases b with
      | none => rfl
      | some a0 =>
        simp only [Op.step, arr_entry_set]
        split
        next l hcm => rfl
        next x hx => rfl
    | newRef =>
      simp only [Op.step, mkRef]
      exact get?_append_of_lt _ _ r hr
    | refAssign r0 v => exact absurd rfl (hne r0 v)

/-- Witness for `payload_kind_invariant`: the mutable keyed lookup that
inserts `"y"` into the concrete dict heap keeps the dict cell's kind,
and leaves the existing ForwardRef slot untouched. -/
theorem payload_kind_invariant_witness :
    (∃ q, ((Op.keyIndexMut (F := Unit) (E := Unit) ex_dict_state.2
        "y").step ex_dict_ref_state.1).cells.get? 1 = some q ∧
      q.kind = Kind.kdict) ∧
    ((Op.keyIndexMut (F := Unit) (E := Unit) ex_dict_state.2
        "y").step ex_dict_ref_state.1).refs.get? 0 =
      ex_dict_ref_state.1.refs.get? 0 := by
  have h := payload_kind_invariant
    (Op.keyIndexMut (F := Unit) (E := Unit) ex_dict_state.2 "y")
    ex_dict_ref_state.1
  exact ⟨h.1 1 (Payload.dict [("x", some 0)]) rfl,
    h.2 (fun r v hcon => Op.noConfusion hcon) 0 (by decide)⟩

/-- **C5.** After the ForwardRef assignment `r = v`, reading `r`
(through the implicit conversion to `const boxed&`) yields exactly the
`boxed` `v` that the matching constructor produced from the input — the
very Value a direct construction yields, hence indistinguishable from
it.  The assignment replaces only the slot's contents: the number of
slots and every payload cell are untouched, so the slot's identity is
preserved and every pre-existing reference to the same slot
(`copyRef r`) observes the newly assigned value. -/
theorem fref_assign_read (h : Heap F E) (r : RefId) (v : Boxed)
    (hr : r < h.refs.length) :
    readRef (assignRef h r v) r = some v ∧
    (assignRef h r v).refs.length = h.refs.length ∧
    (assignRef h r v).cells = h.cells ∧
    ∀ c, c = copyRef r → readRef (assignRef h r v) c = some v := by
  have hread : readRef (assignRef h r v) r = some v := by
    simp only [readRef, assignRef]
    exact get?_set_self_of_lt h.refs r v hr
  refine ⟨hread, by simp [assignRef], rfl, fun c hc => ?_⟩
  rw [hc, copyRef]
  exact hread

/-- Witness for `fref_assign_read`: assigning the directly-constructed
boxed 42 into the fresh slot and reading it back yields that boxed,
which unboxes to 42. -/
theorem fref_assign_read_witness :
    readRef (assignRef ex_assign_state.1 ex_ref_state.2 ex_assign_state.2)
      ex_ref_state.2 = some ex_assign_state.2 ∧
    unbox_int (assignRef ex_assign_state.1 ex_ref_state.2
      ex_assign_state.2) ex_assign_state.2 = some 42 :=
  ⟨(fref_assign_read ex_assign_state.1 ex_ref_state.2 ex_assign_state.2
      (by decide)).1, rfl⟩

/-- **C6.** On the mapping payload `{"x" ↦ boxed 10}`: const keyed
lookup of `"x"` returns the boxed at address 0, which unboxes to the
integer 10; const lookup of the absent key `"y"` violates the contract
(`none` — the const form requires the key to exist); the mutable lookup
of `"y"` inserts a default (null) entry in place and returns it as the
writable reference; afterwards `"y"` is present (and empty), and
writing a boxed 7 through the reference makes the const lookup of
`"y"` return that boxed. -/
theorem dict_lookup_concrete :
    index_key_const ex_dict_state.1 ex_dict_state.2 "x" = some (some 0) ∧
    unbox_int ex_dict_state.1 (some 0) = some 10 ∧
    index_key_const ex_dict_state.1 ex_dict_state.2 "y" = none ∧
    index_key_mut ex_dict_state.1 ex_dict_state.2 "y" =
      some (ex_dict_inserted, boxed_null) ∧
    index_key_const ex_dict_inserted ex_dict_state.2 "y" =
      some boxed_null ∧
    (dict_entry_set (boxed_int ex_dict_inserted 7).1 ex_dict_state.2 "y"
        (boxed_int ex_dict_inserted 7).2).map
      (fun h2 => index_key_const h2 ex_dict_state.2 "y") =
      some (some (boxed_int ex_dict_inserted 7).2) :=
  ⟨rfl, rfl, rfl, rfl, rfl, rfl⟩

/-- **C7.** Invoking a `boxed` holding a unary-function payload
constructed from a callable `f` with an argument returns exactly what
`f` returns on that argument (for any interpretation of the callables);
in particular the function payload built from the add-one callable,
invoked with the boxed integer 41, returns a boxed that unboxes to the
integer 42. -/
theorem fn_payload_call :
    (∀ (G K : Type) (appF : G → Heap G K → Boxed → Heap G K × Boxed)
        (h : Heap G K) (f : G) (arg : Boxed),
        callFn appF (boxed_fn h f).1 (boxed_fn h f).2 arg =
          some (appF f (boxed_fn h f).1 arg)) ∧
    (callFn addOneSem ex_fn_state.1.1 ex_fn_state.1.2 ex_fn_state.2).map
        (fun s => unbox_int s.1 s.2) = some (some 42) := by
  constructor
  · intro G K appF h f arg
    simp [callFn, boxed_fn, Heap.cellAt_alloc]
  · rfl

/-- **C8 (counterexample).** The claim states that the `std::size_t`
overload of `unbox` converts into the runtime's 32-bit signed integer
payload type; but the overload's result type in the source is
`long long`, and at input `2^32` it returns `2^32`, a value no 32-bit
signed integer can hold. -/
theorem unbox_size_t_not_int32 :
    unbox_size_t (2 ^ 32) = 2 ^ 32 ∧
    ¬ (int32_min ≤ unbox_size_t (2 ^ 32) ∧
       unbox_size_t (2 ^ 32) ≤ int32_max) := by
  refine ⟨?_, ?_⟩ <;> norm_num [unbox_size_t, int32_min, int32_max]

/-- **C8 (amended).** `unbox` applied to an already-unboxed native
scalar is the identity; the `std::size_t` overload converts the
unsigned size value to the *signed 64-bit `long long`* type (not the
32-bit `int` payload type): the value is preserved whenever it is below
`2^63`, and the result always lies in the signed 64-bit range. -/
theorem unbox_scalar_id_size_t_longlong :
    (∀ (α : Type) (value : α), unbox_scalar value = value) ∧
    (∀ value : Nat, value < 2 ^ 63 →
       unbox_size_t value = (value : Int)) ∧
    (∀ value : Nat, value < 2 ^ 64 →
       -(2 ^ 63) ≤ unbox_size_t value ∧ unbox_size_t value < 2 ^ 63) := by
  refine ⟨fun α v => rfl,
    fun v hv => by simp only [unbox_size_t, if_pos hv],
    fun v hv => ?_⟩
  simp only [unbox_size_t]
  split <;> constructor <;> omega

/-- Witness for `unbox_scalar_id_size_t_longlong` at concrete inputs:
identity on the scalar 5; value preserved at 7; and at `2^63` (out of
`long long`'s positive range it is not — it wraps) the result still
lies in the signed 64-bit range. -/
theorem unbox_scalar_id_size_t_longlong_witness :
    unbox_scalar (5 : Int) = 5 ∧ unbox_size_t 7 = (7 : Int) ∧
    -(2 ^ 63) ≤ unbox_size_t (2 ^ 63) ∧
    unbox_size_t (2 ^ 63) < 2 ^ 63 := by
  have h := unbox_scalar_id_size_t_longlong
  exact ⟨h.1 Int 5, h.2.1 7 (by norm_num),
    (h.2.2 (2 ^ 63) (by norm_num)).1, (h.2.2 (2 ^ 63) (by norm_num)).2⟩

/-- **C9.** `boxed(const int n)` (source line 44) performs no range
check and has no debug/release conditional compilation — unlike the
`long`/`unsigned long` overloads, it is modelled by one total function
(no `Except` failure path) valid for both build modes — and for every
`n` in the C++ `int` range it stores `n` unchanged: construction
produces a non-null `boxed` whose integer payload unboxes to `n`, in
debug builds as well. -/
theorem int_ctor_unchecked (h : Heap F E) (n : Int)
    (_h1 : int32_min ≤ n) (_h2 : n ≤ int32_max) :
    (boxed_int h n).2.isSome = true ∧
    unbox_int (boxed_int h n).1 (boxed_int h n).2 = some n := by
  refine ⟨rfl, ?_⟩
  simp [unbox_int, boxed_int, Heap.cellAt_alloc]

/-- Witness for `int_ctor_unchecked` at `n = 42` on the empty heap. -/
theorem int_ctor_unchecked_witness :
    (boxed_int emptyHeap 42).2.isSome = true ∧
    unbox_int (boxed_int emptyHeap 42).1 (boxed_int emptyHeap 42).2 =
      some 42 :=
  ⟨(int_ctor_unchecked emptyHeap 42 (by decide) (by decide)).1,
    (int_ctor_unchecked emptyHeap 42 (by decide) (by decide)).2⟩

/-- **C10.** Copying a ForwardRef copies the underlying
`shared_ptr<boxed>`, so the copy designates the very same slot
(`copyRef r = r`); consequently an assignment performed through `r` is
observed by reads and calls through the copy, and an assignment through
the copy is observed through `r`. -/
theorem fref_copy_alias (h : Heap F E) (r : RefId) (v w : Boxed)
    (hr : r < h.refs.length) :
    copyRef r = r ∧
    readRef (assignRef h r v) (copyRef r) = some v ∧
    readRef (assignRef h (copyRef r) w) r = some w ∧
    ∀ (appF : F → Heap F E → Boxed → Heap F E × Boxed) (arg : Boxed),
      callRefFn appF (assignRef h r v) (copyRef r) arg =
        callFn appF (assignRef h r v) v arg := by
  have hread : ∀ u : Boxed, readRef (assignRef h r u) r = some u := by
    intro u
    simp only [readRef, assignRef]
    exact get?_set_self_of_lt h.refs r u hr
  refine ⟨rfl, hread v, hread w, fun appF arg => ?_⟩
  simp only [callRefFn, copyRef, hread v]

/-- Witness for `fref_copy_alias`: assigning a null boxed through the
copy of the fresh slot is observed when reading through the original. -/
theorem fref_copy_alias_witness :
    readRef (assignRef ex_assign_state.1 (copyRef ex_ref_state.2)
      boxed_null) ex_ref_state.2 = some boxed_null :=
  (fref_copy_alias ex_assign_state.1 ex_ref_state.2 ex_assign_state.2
    boxed_null (by decide)).2.2.1

end Purescript
